import Mathlib

/-!
Shallow embedding of the gitlab-scraper metric-collection pipeline
(src/cmd/scrape.go) and proofs about its behavior.

Modelling conventions:
* Go maps (`prometheus.Labels`, `map[string]string`) are association lists
  where a later binding for a key shadows an earlier one, matching the order
  of writes into a Go map; `Labels.lookup` reads such a list.
* The GitLab client is an external collaborator, modelled as a function from
  the API call made (group id plus the options the code builds) to a response
  or a transport error.
* `os.Exit(1)` inside a helper is modelled by the `CollectorResult.exited` /
  `Abort.exited` / `Outcome.exited` values, which propagate to the end of the
  run without executing anything further.  A nil-pointer dereference is
  modelled by `Option.none` results / `Abort.panicked`.
* `pusher.Collector` registrations accumulate in `samples`; `pusher.Push`
  is modelled by the `pushErr` parameter applied to the accumulated batch,
  and `pushedBatch` records whether `Push` was invoked and on what.
-/

namespace Scraper

/-- Go map from label name to label value (`prometheus.Labels`,
`map[string]string`): an association list where later bindings win. -/
abbrev Labels := List (String × String)

/-- Read a key from a label map: the latest binding for the key wins,
matching Go map write semantics. -/
def Labels.lookup : Labels → String → Option String
  | [], _ => none
  | p :: rest, k =>
    match Labels.lookup rest k with
    | some v => some v
    | none => if p.1 = k then some p.2 else none

/-- Extensional equality of two label maps as finite maps (checked over the
union of their key sets). -/
def labelsEq (a b : Labels) : Bool :=
  (a.map Prod.fst ++ b.map Prod.fst).all fun k => Labels.lookup a k == Labels.lookup b k

/-- Go `maps.Copy(dst, src)`: every key of `src` is written into `dst`,
overwriting existing bindings.  With later-binding-wins lists this is
concatenation. -/
def mapsCopy (dst src : Labels) : Labels := dst ++ src

/-- Go `mergeLabels(labelSets ...prometheus.Labels)`: start from a fresh empty
map and `maps.Copy` each input set into it, in order. -/
def mergeLabels (labelSets : List Labels) : Labels :=
  labelSets.foldl mapsCopy []

/-- Specification-side description of last-write-wins: the value for a key is
the one from the latest input set that contains the key. -/
def lastWins : List Labels → String → Option String
  | [], _ => none
  | s :: rest, k =>
    match lastWins rest k with
    | some v => some v
    | none => Labels.lookup s k

/-- Struct `ProjectCountConfig`: sub-configuration of the project-count spec; the
optional boolean `IncludeSubGroups` (a `*bool` in Go, nil when absent). -/
structure ProjectCountConfig where
  IncludeSubGroups : Option Bool
deriving DecidableEq, Repr

/-- Struct `MemberCountConfig`: empty marker struct. -/
abbrev MemberCountConfig := Unit

/-- Struct `GroupConfig`: one group entry of the configuration; each metric spec
field is a nilable pointer, `none` meaning the collector is disabled. -/
structure GroupConfig where
  ID : String
  ProjectCount : Option ProjectCountConfig
  MemberCount : Option MemberCountConfig
deriving DecidableEq, Repr

/-- Struct `Config`: default labels plus the ordered list of groups. -/
structure Config where
  DefaultLabels : Labels
  Groups : List GroupConfig

/-- Go list pagination options (`gitlab.ListOptions`). -/
structure ListOptions where
  page : Int
  perPage : Int
deriving DecidableEq, Repr

/-- Options the code passes to `ListGroupProjects`. -/
structure ListGroupProjectsOptions where
  includeSubGroups : Option Bool
  listOptions : ListOptions
  simple : Option Bool
deriving DecidableEq, Repr

/-- Options the code passes to `ListGroupMembers`. -/
structure ListGroupMembersOptions where
  listOptions : ListOptions
deriving DecidableEq, Repr

/-- One platform-API call made by a collector, with the options it passed. -/
inductive ApiCall
  | listGroupProjects (groupID : String) (opts : ListGroupProjectsOptions)
  | listGroupMembers (groupID : String) (opts : ListGroupMembersOptions)
deriving DecidableEq, Repr

/-- A platform-API response: the record list in the body (abstracted to the
records themselves being opaque strings) and the `TotalItems` metadata
reported in the response headers. -/
structure Response where
  records : List String
  totalItems : Int
deriving DecidableEq, Repr

/-- The external GitLab client: maps a call to a response or an error. -/
abbrev Client := ApiCall → Except String Response

/-- Result of a collector body: either the process was terminated via
`os.Exit(1)` from inside the collector (with the printed diagnostic), or
the collector returned a count to its caller. -/
inductive CollectorResult
  | exited (diag : String)
  | value (n : Int)
deriving DecidableEq, Repr

/-- One metric sample: gauge name, value set on it, and its constant labels. -/
structure MetricSample where
  name : String
  value : Int
  labels : Labels
deriving DecidableEq, Repr

/-- Go `getProjectCount(git, group)`: dereferences `group.ProjectCount` with no
nil check (`none` result models the nil-pointer panic), defaults
`IncludeSubGroups` to false, queries page 1 with one item per page and
`Simple: true`, exits the process on API error, and returns
`resp.TotalItems`.  Also returns the call it issued. -/
def getProjectCount (git : Client) (group : GroupConfig) :
    Option (ApiCall × CollectorResult) :=
  match group.ProjectCount with
  | none => none
  | some pc =>
    let includeSubGroups := pc.IncludeSubGroups.getD false
    let call := ApiCall.listGroupProjects group.ID
      ⟨some includeSubGroups, ⟨1, 1⟩, some true⟩
    match git call with
    | .error e =>
      some (call, .exited ("Failed to list projects for group " ++ group.ID ++ ": " ++ e))
    | .ok resp => some (call, .value resp.totalItems)

/-- Go `getGroupMembersCount(git, group)`: queries page 1 with one item per
page, exits the process on API error, returns `resp.TotalItems`.  Also
returns the call it issued. -/
def getGroupMembersCount (git : Client) (group : GroupConfig) :
    ApiCall × CollectorResult :=
  let call := ApiCall.listGroupMembers group.ID ⟨⟨1, 1⟩⟩
  match git call with
  | .error e =>
    (call, .exited ("Failed to list members for group " ++ group.ID ++ ": " ++ e))
  | .ok resp => (call, .value resp.totalItems)

/-- How a run of the pipeline loop ends early: a nil-pointer panic, or an
`os.Exit(1)` with the printed diagnostic. -/
inductive Abort
  | panicked
  | exited (diag : String)
deriving DecidableEq, Repr

/-- Observable effects of (part of) the group loop: API calls made in order,
gauges registered on the pusher in order, and whether execution aborted. -/
structure GroupOut where
  calls : List ApiCall
  samples : List MetricSample
  abort : Option Abort
deriving DecidableEq, Repr

/-- The labels attached to the samples of a group: `mergeLabels` of
`config.DefaultLabels` and the singleton map binding `group_id` to the
`ID` of the group. -/
def groupLabels (defaultLabels : Labels) (g : GroupConfig) : Labels :=
  mergeLabels [defaultLabels, [("group_id", g.ID)]]

/-- The `if group.ProjectCount != nil` block of the loop body. -/
def processProject (git : Client) (defaultLabels : Labels) (g : GroupConfig) : GroupOut :=
  match g.ProjectCount with
  | none => ⟨[], [], none⟩
  | some _ =>
    match getProjectCount git g with
    | none => ⟨[], [], some .panicked⟩
    | some (call, .exited d) => ⟨[call], [], some (.exited d)⟩
    | some (call, .value n) =>
      ⟨[call], [⟨"gitlab_group_project_count", n, groupLabels defaultLabels g⟩], none⟩

/-- The `if group.MemberCount != nil` block of the loop body. -/
def processMember (git : Client) (defaultLabels : Labels) (g : GroupConfig) : GroupOut :=
  match g.MemberCount with
  | none => ⟨[], [], none⟩
  | some _ =>
    match getGroupMembersCount git g with
    | (call, .exited d) => ⟨[call], [], some (.exited d)⟩
    | (call, .value n) =>
      ⟨[call], [⟨"gitlab_group_members_count", n, groupLabels defaultLabels g⟩], none⟩

/-- Sequencing of effects: if the first part aborted (process terminated),
the second part never executes. -/
def seqOut (a : GroupOut) (b : Unit → GroupOut) : GroupOut :=
  match a.abort with
  | some ab => ⟨a.calls, a.samples, some ab⟩
  | none =>
    let r := b ()
    ⟨a.calls ++ r.calls, a.samples ++ r.samples, r.abort⟩

/-- One iteration of the group loop: project count first, then member count. -/
def processGroup (git : Client) (defaultLabels : Labels) (g : GroupConfig) : GroupOut :=
  seqOut (processProject git defaultLabels g) (fun _ => processMember git defaultLabels g)

/-- The `for _, group := range config.Groups` loop. -/
def scrapeGroups (git : Client) (defaultLabels : Labels) : List GroupConfig → GroupOut
  | [] => ⟨[], [], none⟩
  | g :: rest =>
    seqOut (processGroup git defaultLabels g) (fun _ => scrapeGroups git defaultLabels rest)

/-- How the whole `scrape` invocation ends. -/
inductive Outcome
  | panicked
  | exited (diag : String)
  | completed
deriving DecidableEq, Repr

/-- True exactly on the nil-pointer-panic outcome. -/
def Outcome.isPanic : Outcome → Bool
  | .panicked => true
  | _ => false

/-- True exactly when the loop aborted through a nil-pointer panic. -/
def abortIsPanic : Option Abort → Bool
  | some .panicked => true
  | _ => false

/-- Observable result of `scrape`: calls made, gauges registered,
the batch handed to `pusher.Push` (`none` when `Push` was never invoked),
and the final outcome. -/
structure ScrapeResult where
  calls : List ApiCall
  samples : List MetricSample
  pushedBatch : Option (List MetricSample)
  outcome : Outcome
deriving DecidableEq, Repr

/-- Go `scrape(config, accessToken, pushGatewayURL)`: create the client (exit on
error), run the group loop, then push the registered gauges; exit on push
error.  `newClientErr` models the `gitlab.NewClient` failure case and
`pushErr` the answer of the gateway to `pusher.Push()` on the given batch. -/
def scrape (newClientErr : Option String) (git : Client)
    (pushErr : List MetricSample → Option String) (config : Config) : ScrapeResult :=
  match newClientErr with
  | some e => ⟨[], [], none, .exited ("Failed to create client: " ++ e)⟩
  | none =>
    let out := scrapeGroups git config.DefaultLabels config.Groups
    match out.abort with
    | some .panicked => ⟨out.calls, out.samples, none, .panicked⟩
    | some (.exited d) => ⟨out.calls, out.samples, none, .exited d⟩
    | none =>
      match pushErr out.samples with
      | some e =>
        ⟨out.calls, out.samples, some out.samples,
          .exited ("Failed to push metrics to Push Gateway: " ++ e)⟩
      | none => ⟨out.calls, out.samples, some out.samples, .completed⟩

/-- Diagnostic printed when the access token is missing. -/
def tokenMsg : String :=
  "Please provide an access token using the --token flag or GITLAB_ACCESS_TOKEN environment variable"

/-- Diagnostic printed when the gateway URL is missing. -/
def gatewayMsg : String :=
  "Please provide a Push Gateway URL using the --pushgateway flag or PUSHGATEWAY_URL environment variable"

/-- Go `getRequiredValue(key, envVar, errMsg)`: here `value` is what
`viper.GetString` returns after flag/env binding; the empty string means the
value is absent, printing `errMsg` and exiting with status 1. -/
def getRequiredValue (value : String) (errMsg : String) : Except String String :=
  if value = "" then .error errMsg else .ok value

/-- The environment of one `scrape` subcommand invocation: results of the
external collaborators (viper config reading and unmarshalling, flag/env
values, client construction, the platform API, the gateway push). -/
structure Env where
  readConfigErr : Option String
  accessTokenValue : String
  pushGatewayValue : String
  unmarshalResult : Except String Config
  newClientErr : Option String
  client : Client
  pushErr : List MetricSample → Option String

/-- How the process exits: status 1 with a printed diagnostic, status 0, or
a runtime panic. -/
inductive CmdOutcome
  | exitFailure (diag : String)
  | exitSuccess
  | panicked
deriving DecidableEq, Repr

/-- The `scrapeCmd` Run function: read the config file, resolve the required
token and gateway URL, unmarshal the config, then run `scrape`; each failure
prints a diagnostic and exits with status 1. -/
def runScrapeCmd (env : Env) : CmdOutcome :=
  match env.readConfigErr with
  | some e => .exitFailure ("Failed to read config file: " ++ e)
  | none =>
  match getRequiredValue env.accessTokenValue tokenMsg with
  | .error m => .exitFailure m
  | .ok _ =>
  match getRequiredValue env.pushGatewayValue gatewayMsg with
  | .error m => .exitFailure m
  | .ok _ =>
  match env.unmarshalResult with
  | .error e => .exitFailure ("Failed to unmarshal config: " ++ e)
  | .ok config =>
  match (scrape env.newClientErr env.client env.pushErr config).outcome with
  | .panicked => .panicked
  | .exited d => .exitFailure d
  | .completed => .exitSuccess

/-! ### A heap-level model of `mergeLabels`

Go maps are reference values, so whether `mergeLabels` mutates its inputs is
a question about the heap.  `HeapM` is a store of label maps addressed by
allocation index; `mergeLabelsH` is `mergeLabels` at that level: it allocates
a fresh empty map (`merged := prometheus.Labels` braces-empty) and
`maps.Copy`s each input reference into it. -/

/-- A store of Go maps: contents per address, plus the next fresh address. -/
structure HeapM where
  mem : Nat → Labels
  size : Nat

/-- Go `maps.Copy(dst, src)` at the heap level: only the map at `dst` changes. -/
def mapsCopyH (h : HeapM) (dst src : Nat) : HeapM :=
  ⟨Function.update h.mem dst (mapsCopy (h.mem dst) (h.mem src)), h.size⟩

/-- The function `mergeLabels` at the heap level: allocate a fresh empty map and copy each
input reference into it in order; returns the new heap and the fresh
address holding the result. -/
def mergeLabelsH (h : HeapM) (refs : List Nat) : HeapM × Nat :=
  let dst := h.size
  let init : HeapM := ⟨Function.update h.mem dst [], h.size + 1⟩
  (refs.foldl (fun a r => mapsCopyH a dst r) init, dst)

/-! ### Lemmas about the label merger -/

theorem lookup_append (a b : Labels) (k : String) :
    Labels.lookup (a ++ b) k =
      match Labels.lookup b k with
      | some v => some v
      | none => Labels.lookup a k := by
  induction a with
  | nil =>
    cases hb : Labels.lookup b k <;> simp [Labels.lookup, hb]
  | cons p a ih =>
    cases hb : Labels.lookup b k <;> simp [Labels.lookup, ih, hb]

theorem foldl_mapsCopy_append (sets : List Labels) (a : Labels) :
    sets.foldl mapsCopy a = a ++ sets.foldl mapsCopy [] := by
  induction sets generalizing a with
  | nil => simp
  | cons s rest ih =>
    show List.foldl mapsCopy (mapsCopy a s) rest
      = a ++ List.foldl mapsCopy (mapsCopy [] s) rest
    rw [ih (mapsCopy a s), ih (mapsCopy [] s)]
    simp [mapsCopy]

theorem mergeLabels_cons (s : Labels) (rest : List Labels) :
    mergeLabels (s :: rest) = s ++ mergeLabels rest := by
  show List.foldl mapsCopy (mapsCopy [] s) rest = s ++ mergeLabels rest
  rw [foldl_mapsCopy_append]
  simp [mapsCopy, mergeLabels]

theorem mergeLabels_lookup (sets : List Labels) (k : String) :
    Labels.lookup (mergeLabels sets) k = lastWins sets k := by
  induction sets with
  | nil => rfl
  | cons s rest ih =>
    rw [mergeLabels_cons, lookup_append, ih]
    rfl

theorem lastWins_middle_nil (pre post : List Labels) (k : String) :
    lastWins (pre ++ [] :: post) k = lastWins (pre ++ post) k := by
  induction pre with
  | nil =>
    cases hp : lastWins post k <;> simp [lastWins, Labels.lookup, hp]
  | cons s rest ih =>
    simp [lastWins, ih]

/-- C3: the label merger is last-write-wins over the ordered input sets:
every key holds the value from the latest input set containing it; merging
the map binding env to prod and then the map binding group_id to 42 and env
to staging yields the map binding env to staging and group_id to 42; and
empty input sets contribute nothing. -/
theorem mergeLabels_lastWins_claim :
    (∀ (sets : List Labels) (k : String),
        Labels.lookup (mergeLabels sets) k = lastWins sets k) ∧
    (∀ (pre post : List Labels) (k : String),
        Labels.lookup (mergeLabels (pre ++ [] :: post)) k
          = Labels.lookup (mergeLabels (pre ++ post)) k) ∧
    labelsEq (mergeLabels [[("env", "prod")], [("group_id", "42"), ("env", "staging")]])
        [("env", "staging"), ("group_id", "42")] = true ∧
    Labels.lookup (mergeLabels [[("env", "prod")], [("group_id", "42"), ("env", "staging")]])
        "env" = some "staging" ∧
    Labels.lookup (mergeLabels [[("env", "prod")], [("group_id", "42"), ("env", "staging")]])
        "group_id" = some "42" := by
  refine ⟨mergeLabels_lookup, ?_, by decide, by decide, by decide⟩
  intro pre post k
  rw [mergeLabels_lookup, mergeLabels_lookup, lastWins_middle_nil]

/-- C2: a group with neither metric spec yields no samples, no calls and no
abort; a group with only member_count yields exactly the one member-count
sample and only the member-count API call; a group with only project_count
yields exactly the one project-count sample and only the project-count API
call; a group with both yields exactly one sample per enabled spec. -/
theorem selective_collection :
    (∀ (git : Client) (dl : Labels) (id : String),
        processGroup git dl ⟨id, none, none⟩ = ⟨[], [], none⟩) ∧
    (∀ (recs : List String) (n : Int) (dl : Labels) (id : String),
        processGroup (fun _ => .ok ⟨recs, n⟩) dl ⟨id, none, some ()⟩
          = ⟨[ApiCall.listGroupMembers id ⟨⟨1, 1⟩⟩],
             [⟨"gitlab_group_members_count", n, groupLabels dl ⟨id, none, some ()⟩⟩],
             none⟩) ∧
    (∀ (recs : List String) (n : Int) (dl : Labels) (id : String)
        (pcc : ProjectCountConfig),
        processGroup (fun _ => .ok ⟨recs, n⟩) dl ⟨id, some pcc, none⟩
          = ⟨[ApiCall.listGroupProjects id
                ⟨some (pcc.IncludeSubGroups.getD false), ⟨1, 1⟩, some true⟩],
             [⟨"gitlab_group_project_count", n, groupLabels dl ⟨id, some pcc, none⟩⟩],
             none⟩) ∧
    (∀ (recs : List String) (n : Int) (dl : Labels) (id : String)
        (pcc : ProjectCountConfig),
        (processGroup (fun _ => .ok ⟨recs, n⟩) dl ⟨id, some pcc, some ()⟩).samples.map
            MetricSample.name
          = ["gitlab_group_project_count", "gitlab_group_members_count"]) := by
  refine ⟨fun git dl id => rfl, fun recs n dl id => rfl, fun recs n dl id pcc => rfl,
    fun recs n dl id pcc => rfl⟩

/-- Stub client for the sub-group inclusion toggle: total 25 when the query
carries include_subgroups true, total 10 when it carries false. -/
def stubSub : Client := fun c =>
  match c with
  | .listGroupProjects _ opts =>
    match opts.includeSubGroups with
    | some true => .ok ⟨[], 25⟩
    | some false => .ok ⟨[], 10⟩
    | none => .error "option missing"
  | _ => .error "unexpected call"

/-- C4: the project-count collector always queries with include_subgroups
equal to the configured option defaulted to false (false when the option is
absent, true when explicitly true); against the stub answering 10 for false
and 25 for true, the collected value is 10 when the option is absent and 25
when it is explicitly true. -/
theorem includeSubGroups_toggle :
    (∀ (git : Client) (id : String) (pcc : ProjectCountConfig)
        (mc : Option MemberCountConfig),
        (getProjectCount git ⟨id, some pcc, mc⟩).map Prod.fst
          = some (ApiCall.listGroupProjects id
              ⟨some (pcc.IncludeSubGroups.getD false), ⟨1, 1⟩, some true⟩)) ∧
    (∀ (id : String) (mc : Option MemberCountConfig),
        getProjectCount stubSub ⟨id, some ⟨none⟩, mc⟩
          = some (ApiCall.listGroupProjects id ⟨some false, ⟨1, 1⟩, some true⟩,
              .value 10)) ∧
    (∀ (id : String) (mc : Option MemberCountConfig),
        getProjectCount stubSub ⟨id, some ⟨some true⟩, mc⟩
          = some (ApiCall.listGroupProjects id ⟨some true, ⟨1, 1⟩, some true⟩,
              .value 25)) := by
  refine ⟨?_, fun id mc => rfl, fun id mc => rfl⟩
  intro git id pcc mc
  cases hg : git (ApiCall.listGroupProjects id
      ⟨some (pcc.IncludeSubGroups.getD false), ⟨1, 1⟩, some true⟩) <;>
    simp [getProjectCount, hg]

/-- C5: both collectors request page 1 with one item per page and return the
total-item count of the response metadata: for every response, whatever its
record list, the collected value is exactly the reported totalItems. -/
theorem totalItems_semantics :
    ∀ (recs : List String) (n : Int) (id : String) (pcc : ProjectCountConfig)
      (pc : Option ProjectCountConfig) (mc : Option MemberCountConfig),
      getProjectCount (fun _ => .ok ⟨recs, n⟩) ⟨id, some pcc, mc⟩
        = some (ApiCall.listGroupProjects id
            ⟨some (pcc.IncludeSubGroups.getD false), ⟨1, 1⟩, some true⟩,
            .value n) ∧
      getGroupMembersCount (fun _ => .ok ⟨recs, n⟩) ⟨id, pc, mc⟩
        = (ApiCall.listGroupMembers id ⟨⟨1, 1⟩⟩, .value n) := by
  intro recs n id pcc pc mc
  exact ⟨rfl, rfl⟩

/-! ### The loop never hits the unchecked nil dereference -/

theorem processProject_not_panic (git : Client) (dl : Labels) (g : GroupConfig) :
    abortIsPanic (processProject git dl g).abort = false := by
  obtain ⟨id, pc, mc⟩ := g
  cases pc with
  | none => rfl
  | some pcc =>
    cases hg : git (ApiCall.listGroupProjects id
        ⟨some (pcc.IncludeSubGroups.getD false), ⟨1, 1⟩, some true⟩) <;>
      simp [processProject, getProjectCount, hg, abortIsPanic]

theorem processMember_not_panic (git : Client) (dl : Labels) (g : GroupConfig) :
    abortIsPanic (processMember git dl g).abort = false := by
  obtain ⟨id, pc, mc⟩ := g
  cases mc with
  | none => rfl
  | some u =>
    cases hg : git (ApiCall.listGroupMembers id ⟨⟨1, 1⟩⟩) <;>
      simp [processMember, getGroupMembersCount, hg, abortIsPanic]

theorem seqOut_not_panic (a : GroupOut) (b : Unit → GroupOut)
    (ha : abortIsPanic a.abort = false) (hb : abortIsPanic (b ()).abort = false) :
    abortIsPanic (seqOut a b).abort = false := by
  cases hab : a.abort with
  | some ab =>
    rw [hab] at ha
    simpa [seqOut, hab] using ha
  | none => simpa [seqOut, hab] using hb

theorem processGroup_not_panic (git : Client) (dl : Labels) (g : GroupConfig) :
    abortIsPanic (processGroup git dl g).abort = false :=
  seqOut_not_panic _ _ (processProject_not_panic git dl g)
    (processMember_not_panic git dl g)

theorem scrapeGroups_not_panic (git : Client) (dl : Labels) (gs : List GroupConfig) :
    abortIsPanic (scrapeGroups git dl gs).abort = false := by
  induction gs with
  | nil => rfl
  | cons g rest ih =>
    exact seqOut_not_panic _ _ (processGroup_not_panic git dl g) ih

/-- C9: `getProjectCount` really does dereference a nil `ProjectCount`
(modelled as the `none` result), but the loop only calls it behind the
non-nil check, so no iteration of the pipeline ever panics: the abort value of the loop is never the panic value and no run of `scrape` ends in a panic. -/
theorem no_nil_deref :
    (∀ (git : Client) (id : String) (mc : Option MemberCountConfig),
        getProjectCount git ⟨id, none, mc⟩ = none) ∧
    (∀ (git : Client) (dl : Labels) (gs : List GroupConfig),
        abortIsPanic (scrapeGroups git dl gs).abort = false) ∧
    (∀ (nce : Option String) (git : Client)
        (pe : List MetricSample → Option String) (cfg : Config),
        Outcome.isPanic (scrape nce git pe cfg).outcome = false) := by
  refine ⟨fun _ _ _ => rfl, scrapeGroups_not_panic, ?_⟩
  intro nce git pe cfg
  cases nce with
  | some e => rfl
  | none =>
    have h := scrapeGroups_not_panic git cfg.DefaultLabels cfg.Groups
    cases hab : (scrapeGroups git cfg.DefaultLabels cfg.Groups).abort with
    | none =>
      cases hp : pe (scrapeGroups git cfg.DefaultLabels cfg.Groups).samples <;>
        simp [scrape, hab, hp, Outcome.isPanic]
    | some ab =>
      cases ab with
      | panicked => rw [hab] at h; simp [abortIsPanic] at h
      | exited d => simp [scrape, hab, Outcome.isPanic]

/-! ### The all-success end-to-end scenario -/

/-- Per-group sample order: the possible name sequences of the samples of one group; a member-count sample never precedes a project-count sample. -/
theorem processGroup_names (git : Client) (dl : Labels) (g : GroupConfig) :
    (processGroup git dl g).samples.map MetricSample.name ∈
      ([[], ["gitlab_group_project_count"], ["gitlab_group_members_count"],
        ["gitlab_group_project_count", "gitlab_group_members_count"]] :
        List (List String)) := by
  obtain ⟨id, pc, mc⟩ := g
  cases pc with
  | none =>
    cases mc with
    | none => simp [processGroup, processProject, processMember, seqOut]
    | some u =>
      cases hg : git (ApiCall.listGroupMembers id ⟨⟨1, 1⟩⟩) <;>
        simp [processGroup, processProject, processMember, seqOut,
          getGroupMembersCount, hg]
  | some pcc =>
    cases hp : git (ApiCall.listGroupProjects id
        ⟨some (pcc.IncludeSubGroups.getD false), ⟨1, 1⟩, some true⟩) with
    | error e =>
      simp [processGroup, processProject, processMember, seqOut,
        getProjectCount, hp]
    | ok resp =>
      cases mc with
      | none =>
        simp [processGroup, processProject, processMember, seqOut,
          getProjectCount, hp]
      | some u =>
        cases hg : git (ApiCall.listGroupMembers id ⟨⟨1, 1⟩⟩) <;>
          simp [processGroup, processProject, processMember, seqOut,
            getProjectCount, getGroupMembersCount, hp, hg]

/-- Stub client for the end-to-end scenario: project totals 3 for G1 and 7
for G2, member total 2 for G2. -/
def stubTwoGroups : Client := fun c =>
  match c with
  | .listGroupProjects "G1" _ => .ok ⟨[], 3⟩
  | .listGroupProjects "G2" _ => .ok ⟨[], 7⟩
  | .listGroupMembers "G2" _ => .ok ⟨[], 2⟩
  | _ => .error "unexpected call"

/-- Configuration for the end-to-end scenario: default labels bind team to
x; G1 enables only project_count, G2 enables both specs. -/
def cfgTwoGroups : Config :=
  ⟨[("team", "x")], [⟨"G1", some ⟨none⟩, none⟩, ⟨"G2", some ⟨none⟩, some ()⟩]⟩

/-- C1: the two-group all-success run produces exactly three samples in
order (project count 3 for G1, project count 7 for G2, member count 2 for
G2), each carrying the merged labels of team x plus its group_id; the
publisher receives exactly this batch; the run completes; the sample label
maps equal the expected maps regardless of binding order; and in every
output of every group a project-count sample precedes any member-count sample. -/
theorem end_to_end_all_success :
    scrape none stubTwoGroups (fun _ => none) cfgTwoGroups
      = ⟨[ApiCall.listGroupProjects "G1" ⟨some false, ⟨1, 1⟩, some true⟩,
          ApiCall.listGroupProjects "G2" ⟨some false, ⟨1, 1⟩, some true⟩,
          ApiCall.listGroupMembers "G2" ⟨⟨1, 1⟩⟩],
         [⟨"gitlab_group_project_count", 3, [("team", "x"), ("group_id", "G1")]⟩,
          ⟨"gitlab_group_project_count", 7, [("team", "x"), ("group_id", "G2")]⟩,
          ⟨"gitlab_group_members_count", 2, [("team", "x"), ("group_id", "G2")]⟩],
         some
          [⟨"gitlab_group_project_count", 3, [("team", "x"), ("group_id", "G1")]⟩,
           ⟨"gitlab_group_project_count", 7, [("team", "x"), ("group_id", "G2")]⟩,
           ⟨"gitlab_group_members_count", 2, [("team", "x"), ("group_id", "G2")]⟩],
         .completed⟩ ∧
    labelsEq [("team", "x"), ("group_id", "G1")] [("group_id", "G1"), ("team", "x")]
      = true ∧
    labelsEq [("team", "x"), ("group_id", "G2")] [("group_id", "G2"), ("team", "x")]
      = true ∧
    (∀ (git : Client) (dl : Labels) (g : GroupConfig),
        (processGroup git dl g).samples.map MetricSample.name ∈
          ([[], ["gitlab_group_project_count"], ["gitlab_group_members_count"],
            ["gitlab_group_project_count", "gitlab_group_members_count"]] :
            List (List String))) :=
  ⟨rfl, by decide, by decide, processGroup_names⟩

/-! ### Fatal short-circuit on collector failure -/

/-- Stub client for the short-circuit scenario: projects of group A succeed
with total 1, the project query of group B fails, everything else succeeds. -/
def stubSecondFails : Client := fun c =>
  match c with
  | .listGroupProjects "A" _ => .ok ⟨[], 1⟩
  | .listGroupProjects "B" _ => .error "boom"
  | _ => .ok ⟨[], 5⟩

/-- Three groups; the project collector of the second one fails (it also enables
member_count, which must then never be queried), the third is never
reached. -/
def cfgThreeGroups : Config :=
  ⟨[], [⟨"A", some ⟨none⟩, none⟩, ⟨"B", some ⟨none⟩, some ()⟩,
        ⟨"C", some ⟨none⟩, some ()⟩]⟩

/-- C6: a collector failure is fatal to the run: once the processing of a group
aborts, the remaining groups contribute no calls and no samples; whenever
the loop aborts the batch is never pushed; and in the concrete three-group
scenario where the collector of group B fails, the run stops after the two
project calls for A and B — no member-count call for B, none for group C,
no push, and the process exits with the collector diagnostic. -/
theorem fatal_short_circuit :
    (∀ (git : Client) (dl : Labels) (g : GroupConfig) (rest : List GroupConfig)
        (c : List ApiCall) (s : List MetricSample) (ab : Abort),
        processGroup git dl g = ⟨c, s, some ab⟩ →
        scrapeGroups git dl (g :: rest) = ⟨c, s, some ab⟩) ∧
    (∀ (nce : Option String) (git : Client)
        (pe : List MetricSample → Option String) (cfg : Config),
        (scrapeGroups git cfg.DefaultLabels cfg.Groups).abort.isSome = true →
        (scrape nce git pe cfg).pushedBatch = none) ∧
    scrape none stubSecondFails (fun _ => none) cfgThreeGroups
      = ⟨[ApiCall.listGroupProjects "A" ⟨some false, ⟨1, 1⟩, some true⟩,
          ApiCall.listGroupProjects "B" ⟨some false, ⟨1, 1⟩, some true⟩],
         [⟨"gitlab_group_project_count", 1, [("group_id", "A")]⟩],
         none,
         .exited "Failed to list projects for group B: boom"⟩ := by
  refine ⟨?_, ?_, rfl⟩
  · intro git dl g rest c s ab h
    show seqOut (processGroup git dl g) (fun _ => scrapeGroups git dl rest)
      = ⟨c, s, some ab⟩
    rw [h]
    rfl
  · intro nce git pe cfg hab
    cases nce with
    | some e => rfl
    | none =>
      cases h : (scrapeGroups git cfg.DefaultLabels cfg.Groups).abort with
      | none => rw [h] at hab; simp at hab
      | some ab => cases ab <;> simp [scrape, h]

/-- Witness for the short-circuit theorem at concrete inputs. -/
theorem fatal_short_circuit_witness :
    scrapeGroups stubSecondFails []
        [⟨"B", some ⟨none⟩, some ()⟩, ⟨"C", some ⟨none⟩, some ()⟩]
      = ⟨[ApiCall.listGroupProjects "B" ⟨some false, ⟨1, 1⟩, some true⟩], [],
         some (.exited "Failed to list projects for group B: boom")⟩ ∧
    (scrape none stubSecondFails (fun _ => none) cfgThreeGroups).pushedBatch
      = none :=
  ⟨fatal_short_circuit.1 stubSecondFails [] ⟨"B", some ⟨none⟩, some ()⟩
      [⟨"C", some ⟨none⟩, some ()⟩]
      [ApiCall.listGroupProjects "B" ⟨some false, ⟨1, 1⟩, some true⟩] []
      (.exited "Failed to list projects for group B: boom") rfl,
   fatal_short_circuit.2.1 none stubSecondFails (fun _ => none) cfgThreeGroups rfl⟩

/-! ### What happens inside a failing collector -/

/-- A client whose every call fails. -/
def failingClient : Client := fun _ => .error "boom"

/-- Counterexample to C7 as stated: on API failure the collectors do not
return a failure value to their caller — each one handles the failure
itself by printing a diagnostic and terminating the process
(`CollectorResult.exited` models the `os.Exit(1)` executed inside the
collector body). -/
theorem collector_exit_counterexample :
    getProjectCount failingClient ⟨"G1", some ⟨none⟩, none⟩
      = some (ApiCall.listGroupProjects "G1" ⟨some false, ⟨1, 1⟩, some true⟩,
          CollectorResult.exited "Failed to list projects for group G1: boom") ∧
    getGroupMembersCount failingClient ⟨"G1", none, some ()⟩
      = (ApiCall.listGroupMembers "G1" ⟨⟨1, 1⟩⟩,
          CollectorResult.exited "Failed to list members for group G1: boom") :=
  ⟨rfl, rfl⟩

/-- C7 amended: on collector failure the collector itself prints a
diagnostic and terminates the process; nothing suppresses or retries the
failure — the processing of the group ends at once with exactly that exit, and a
run whose loop aborted that way ends with the same exit and never pushes. -/
theorem collector_failure_terminates :
    (∀ (git : Client) (dl : Labels) (g : GroupConfig) (c : ApiCall) (d : String),
        getProjectCount git g = some (c, .exited d) →
        processGroup git dl g = ⟨[c], [], some (.exited d)⟩) ∧
    (∀ (git : Client) (dl : Labels) (g : GroupConfig) (c : ApiCall) (d : String),
        g.ProjectCount = none → g.MemberCount = some () →
        getGroupMembersCount git g = (c, .exited d) →
        processGroup git dl g = ⟨[c], [], some (.exited d)⟩) ∧
    (∀ (git : Client) (pe : List MetricSample → Option String) (cfg : Config)
        (d : String),
        (scrapeGroups git cfg.DefaultLabels cfg.Groups).abort = some (.exited d) →
        scrape none git pe cfg
          = ⟨(scrapeGroups git cfg.DefaultLabels cfg.Groups).calls,
             (scrapeGroups git cfg.DefaultLabels cfg.Groups).samples,
             none, .exited d⟩) := by
  refine ⟨?_, ?_, ?_⟩
  · intro git dl g c d h
    obtain ⟨id, pc, mc⟩ := g
    cases pc with
    | none => simp [getProjectCount] at h
    | some pcc =>
      show seqOut (processProject git dl ⟨id, some pcc, mc⟩) _ = _
      simp [processProject, h, seqOut]
  · intro git dl g c d hpc hmc h
    obtain ⟨id, pc, mc⟩ := g
    cases hpc
    cases hmc
    show seqOut (processProject git dl ⟨id, none, some ()⟩) _ = _
    simp [processProject, processMember, h, seqOut]
  · intro git pe cfg d h
    simp [scrape, h]

/-- Witness for the amended C7 theorem at concrete inputs. -/
theorem collector_failure_terminates_witness :
    processGroup failingClient [] ⟨"G1", some ⟨none⟩, none⟩
      = ⟨[ApiCall.listGroupProjects "G1" ⟨some false, ⟨1, 1⟩, some true⟩], [],
         some (.exited "Failed to list projects for group G1: boom")⟩ ∧
    processGroup failingClient [] ⟨"G1", none, some ()⟩
      = ⟨[ApiCall.listGroupMembers "G1" ⟨⟨1, 1⟩⟩], [],
         some (.exited "Failed to list members for group G1: boom")⟩ ∧
    scrape none failingClient (fun _ => none) ⟨[], [⟨"G1", some ⟨none⟩, none⟩]⟩
      = ⟨[ApiCall.listGroupProjects "G1" ⟨some false, ⟨1, 1⟩, some true⟩], [],
         none, .exited "Failed to list projects for group G1: boom"⟩ :=
  ⟨collector_failure_terminates.1 failingClient [] ⟨"G1", some ⟨none⟩, none⟩
      (ApiCall.listGroupProjects "G1" ⟨some false, ⟨1, 1⟩, some true⟩)
      "Failed to list projects for group G1: boom" rfl,
   collector_failure_terminates.2.1 failingClient [] ⟨"G1", none, some ()⟩
      (ApiCall.listGroupMembers "G1" ⟨⟨1, 1⟩⟩)
      "Failed to list members for group G1: boom" rfl rfl rfl,
   collector_failure_terminates.2.2 failingClient (fun _ => none)
      ⟨[], [⟨"G1", some ⟨none⟩, none⟩]⟩
      "Failed to list projects for group G1: boom" rfl⟩

/-! ### Exit behavior of the subcommand -/

theorem scrape_completed_iff (nce : Option String) (git : Client)
    (pe : List MetricSample → Option String) (cfg : Config) :
    (scrape nce git pe cfg).outcome = .completed ↔
      nce = none ∧ (scrapeGroups git cfg.DefaultLabels cfg.Groups).abort = none ∧
      pe (scrapeGroups git cfg.DefaultLabels cfg.Groups).samples = none := by
  cases nce with
  | some e => simp [scrape]
  | none =>
    cases h : (scrapeGroups git cfg.DefaultLabels cfg.Groups).abort with
    | none =>
      cases hp : pe (scrapeGroups git cfg.DefaultLabels cfg.Groups).samples <;>
        simp [scrape, h, hp]
    | some ab => cases ab <;> simp [scrape, h]

/-- C8: the subcommand exits non-zero with the corresponding diagnostic on a
config read failure, a missing access token, a missing gateway URL, an
unmarshal failure, or any failure during `scrape` (collector failure or
gateway push failure); and it exits zero exactly when the config loads, both
required values are present, the client is created, no collector
aborts the loop, and the push of the accumulated batch succeeds. -/
theorem exit_behavior :
    (∀ (env : Env) (e : String), env.readConfigErr = some e →
        runScrapeCmd env = .exitFailure ("Failed to read config file: " ++ e)) ∧
    (∀ env : Env, env.readConfigErr = none → env.accessTokenValue = "" →
        runScrapeCmd env = .exitFailure tokenMsg) ∧
    (∀ env : Env, env.readConfigErr = none → env.accessTokenValue ≠ "" →
        env.pushGatewayValue = "" → runScrapeCmd env = .exitFailure gatewayMsg) ∧
    (∀ (env : Env) (e : String), env.readConfigErr = none →
        env.accessTokenValue ≠ "" → env.pushGatewayValue ≠ "" →
        env.unmarshalResult = .error e →
        runScrapeCmd env = .exitFailure ("Failed to unmarshal config: " ++ e)) ∧
    (∀ (env : Env) (cfg : Config) (d : String), env.readConfigErr = none →
        env.accessTokenValue ≠ "" → env.pushGatewayValue ≠ "" →
        env.unmarshalResult = .ok cfg →
        (scrape env.newClientErr env.client env.pushErr cfg).outcome = .exited d →
        runScrapeCmd env = .exitFailure d) ∧
    (∀ env : Env, runScrapeCmd env = .exitSuccess ↔
        env.readConfigErr = none ∧ env.accessTokenValue ≠ "" ∧
        env.pushGatewayValue ≠ "" ∧
        ∃ cfg, env.unmarshalResult = .ok cfg ∧ env.newClientErr = none ∧
          (scrapeGroups env.client cfg.DefaultLabels cfg.Groups).abort = none ∧
          env.pushErr
              (scrapeGroups env.client cfg.DefaultLabels cfg.Groups).samples
            = none) := by
  refine ⟨?_, ?_, ?_, ?_, ?_, ?_⟩
  · intro env e h
    simp [runScrapeCmd, h]
  · intro env h1 h2
    simp [runScrapeCmd, h1, h2, getRequiredValue]
  · intro env h1 h2 h3
    simp [runScrapeCmd, h1, h2, h3, getRequiredValue]
  · intro env e h1 h2 h3 h4
    simp [runScrapeCmd, h1, h2, h3, h4, getRequiredValue]
  · intro env cfg d h1 h2 h3 h4 h5
    simp [runScrapeCmd, h1, h2, h3, h4, h5, getRequiredValue]
  · intro env
    obtain ⟨rce, tok, gw, um, nce, cl, pe⟩ := env
    cases rce with
    | some e => simp [runScrapeCmd]
    | none =>
      by_cases htok : tok = ""
      · simp [runScrapeCmd, getRequiredValue, htok]
      · by_cases hgw : gw = ""
        · simp [runScrapeCmd, getRequiredValue, htok, hgw]
        · cases um with
          | error e => simp [runScrapeCmd, getRequiredValue, htok, hgw]
          | ok cfg =>
            have hiff := scrape_completed_iff nce cl pe cfg
            simp only [runScrapeCmd, getRequiredValue, htok, hgw, if_neg]
            cases ho : (scrape nce cl pe cfg).outcome with
            | panicked =>
              rw [ho] at hiff
              simp [htok, hgw, ← hiff]
            | exited d =>
              rw [ho] at hiff
              simp [htok, hgw, ← hiff]
            | completed =>
              rw [ho] at hiff
              simp [htok, hgw, ← hiff]

/-- Witness for the exit-behavior theorem at concrete inputs. -/
theorem exit_behavior_witness :
    runScrapeCmd ⟨none, "tok", "url", .ok ⟨[], []⟩, none, failingClient,
        fun _ => none⟩ = .exitSuccess ∧
    runScrapeCmd ⟨some "io", "tok", "url", .ok ⟨[], []⟩, none, failingClient,
        fun _ => none⟩ = .exitFailure "Failed to read config file: io" :=
  ⟨(exit_behavior.2.2.2.2.2 _).mpr
      ⟨rfl, by decide, by decide, ⟨[], []⟩, rfl, rfl, rfl, rfl⟩,
   exit_behavior.1 _ "io" rfl⟩

/-! ### The merger mutates only its freshly allocated result map -/

theorem mergeLoop_spec (dst : Nat) (refs : List Nat) (m : HeapM) :
    ((refs.foldl (fun a r => mapsCopyH a dst r) m).size = m.size) ∧
    (∀ i, i ≠ dst →
        (refs.foldl (fun a r => mapsCopyH a dst r) m).mem i = m.mem i) ∧
    ((∀ r ∈ refs, r ≠ dst) →
        (refs.foldl (fun a r => mapsCopyH a dst r) m).mem dst
          = List.foldl mapsCopy (m.mem dst) (refs.map m.mem)) := by
  induction refs generalizing m with
  | nil => exact ⟨rfl, fun i hi => rfl, fun _ => rfl⟩
  | cons r rest ih =>
    obtain ⟨ihsize, ihmem, ihdst⟩ := ih (mapsCopyH m dst r)
    refine ⟨?_, ?_, ?_⟩
    · simpa [mapsCopyH] using ihsize
    · intro i hi
      rw [List.foldl_cons, ihmem i hi]
      simp [mapsCopyH, Function.update_noteq hi]
    · intro hall
      rw [List.foldl_cons, ihdst (fun x hx => hall x (List.mem_cons_of_mem _ hx))]
      have h1 : (mapsCopyH m dst r).mem dst = mapsCopy (m.mem dst) (m.mem r) := by
        simp [mapsCopyH, Function.update_same]
      have h2 : rest.map (mapsCopyH m dst r).mem = rest.map m.mem := by
        apply List.map_congr_left
        intro x hx
        have hxd : x ≠ dst := hall x (List.mem_cons_of_mem _ hx)
        simp [mapsCopyH, Function.update_noteq hxd]
      rw [h1, h2, List.map_cons, List.foldl_cons]

theorem processGroup_sample_labels (git : Client) (dl : Labels) (g : GroupConfig)
    (s : MetricSample) (hs : s ∈ (processGroup git dl g).samples) :
    s.labels = groupLabels dl g := by
  obtain ⟨id, pc, mc⟩ := g
  cases pc with
  | none =>
    cases mc with
    | none => simp [processGroup, processProject, processMember, seqOut] at hs
    | some u =>
      cases hg : git (ApiCall.listGroupMembers id ⟨⟨1, 1⟩⟩) with
      | error e =>
        simp [processGroup, processProject, processMember, seqOut,
          getGroupMembersCount, hg] at hs
      | ok resp =>
        simp [processGroup, processProject, processMember, seqOut,
          getGroupMembersCount, hg] at hs
        subst hs
        rfl
  | some pcc =>
    cases hp : git (ApiCall.listGroupProjects id
        ⟨some (pcc.IncludeSubGroups.getD false), ⟨1, 1⟩, some true⟩) with
    | error e =>
      simp [processGroup, processProject, processMember, seqOut,
        getProjectCount, hp] at hs
    | ok resp =>
      cases mc with
      | none =>
        simp [processGroup, processProject, processMember, seqOut,
          getProjectCount, hp] at hs
        subst hs
        rfl
      | some u =>
        cases hg : git (ApiCall.listGroupMembers id ⟨⟨1, 1⟩⟩) with
        | error e =>
          simp [processGroup, processProject, processMember, seqOut,
            getProjectCount, getGroupMembersCount, hp, hg] at hs
          subst hs
          rfl
        | ok resp2 =>
          simp [processGroup, processProject, processMember, seqOut,
            getProjectCount, getGroupMembersCount, hp, hg] at hs
          rcases hs with hs | hs <;> (subst hs; rfl)

/-- C10: at the heap level the merger allocates a fresh address for its
result, leaves every pre-existing map (in particular every input and the
default labels of the configuration) untouched, and the fresh map holds exactly
the pure merge of the inputs; consequently every sample the group processor
emits carries the merge of the original default labels with the
group_id label. -/
theorem mergeLabels_no_mutation :
    (∀ (h : HeapM) (refs : List Nat), (mergeLabelsH h refs).2 = h.size) ∧
    (∀ (h : HeapM) (refs : List Nat) (i : Nat), i < h.size →
        (mergeLabelsH h refs).1.mem i = h.mem i) ∧
    (∀ (h : HeapM) (refs : List Nat), (∀ r ∈ refs, r < h.size) →
        (mergeLabelsH h refs).1.mem h.size = mergeLabels (refs.map h.mem)) ∧
    (∀ (git : Client) (dl : Labels) (g : GroupConfig) (s : MetricSample),
        s ∈ (processGroup git dl g).samples → s.labels = groupLabels dl g) := by
  refine ⟨fun h refs => rfl, ?_, ?_, processGroup_sample_labels⟩
  · intro h refs i hi
    have hne : i ≠ h.size := Nat.ne_of_lt hi
    have hloop := (mergeLoop_spec h.size refs
      ⟨Function.update h.mem h.size [], h.size + 1⟩).2.1 i hne
    show (refs.foldl (fun a r => mapsCopyH a h.size r)
        ⟨Function.update h.mem h.size [], h.size + 1⟩).mem i = h.mem i
    rw [hloop]
    exact Function.update_noteq hne [] h.mem
  · intro h refs hall
    have hne : ∀ r ∈ refs, r ≠ h.size := fun r hr => Nat.ne_of_lt (hall r hr)
    have hloop := (mergeLoop_spec h.size refs
      ⟨Function.update h.mem h.size [], h.size + 1⟩).2.2 hne
    show (refs.foldl (fun a r => mapsCopyH a h.size r)
        ⟨Function.update h.mem h.size [], h.size + 1⟩).mem h.size
      = mergeLabels (refs.map h.mem)
    rw [hloop]
    have hmap : refs.map (HeapM.mem ⟨Function.update h.mem h.size [], h.size + 1⟩)
        = refs.map h.mem := by
      apply List.map_congr_left
      intro x hx
      exact Function.update_noteq (hne x hx) [] h.mem
    rw [hmap]
    show List.foldl mapsCopy (Function.update h.mem h.size [] h.size)
        (refs.map h.mem) = mergeLabels (refs.map h.mem)
    rw [Function.update_same]
    rfl

/-- Witness for the no-mutation theorem at concrete inputs. -/
theorem mergeLabels_no_mutation_witness :
    (mergeLabelsH ⟨fun i => if i = 0 then [("team", "x")] else [], 1⟩ [0]).1.mem 0
      = HeapM.mem ⟨fun i => if i = 0 then [("team", "x")] else [], 1⟩ 0 ∧
    (mergeLabelsH ⟨fun i => if i = 0 then [("team", "x")] else [], 1⟩ [0]).1.mem 1
      = mergeLabels ([0].map
          (HeapM.mem ⟨fun i => if i = 0 then [("team", "x")] else [], 1⟩)) ∧
    MetricSample.labels
        ⟨"gitlab_group_members_count", 4, groupLabels [] ⟨"M", none, some ()⟩⟩
      = groupLabels [] ⟨"M", none, some ()⟩ :=
  ⟨mergeLabels_no_mutation.2.1 ⟨fun i => if i = 0 then [("team", "x")] else [], 1⟩
      [0] 0 (by decide),
   mergeLabels_no_mutation.2.2.1 ⟨fun i => if i = 0 then [("team", "x")] else [], 1⟩
      [0] (by decide),
   mergeLabels_no_mutation.2.2.2 (fun _ => .ok ⟨[], 4⟩) [] ⟨"M", none, some ()⟩
      ⟨"gitlab_group_members_count", 4, groupLabels [] ⟨"M", none, some ()⟩⟩
      (by decide)⟩

end Scraper
